import Mathlib

/-!
Verification of the `sp` shared/weak pointer library (src/src/sp.hpp).

The embedding models the control block of `sp::detail` as an explicit
state record (`BlockState`) whose atomic counters are `Int` values
(`std::atomic_long`), instrumented with call counters for
`destroy_object` / `destroy_block` so that the exactly-once teardown
protocol can be stated.  Handles (`SharedPtr` / `WeakPtr`) are records
of a nullable payload pointer and a control-block reference; since
every claim concerns the history of a single control block, the
control-block pointer is modelled as a `Bool` (`true` = points at the
block under study, `false` = null) and the block state is threaded
explicitly through the operations.
-/

namespace Sp

/-- State of one `detail::IControlBlockBase`: the two atomic counters,
plus instrumentation counting how many times `destroy_object()` and
`destroy_block()` have been invoked on this block. -/
structure BlockState where
  strongCount : Int
  weakCount : Int
  objCalls : Nat
  blkCalls : Nat
deriving DecidableEq, Repr

/-- The initial state a factory establishes: strong count 1, weak count 0,
no teardown call has happened. -/
def BlockState.fresh : BlockState :=
  { strongCount := 1, weakCount := 0, objCalls := 0, blkCalls := 0 }

/-- Effect of `destroy_object()` on the instrumented state. -/
def destroyObjectStep (st : BlockState) : BlockState :=
  { st with objCalls := st.objCalls + 1 }

/-- Effect of `destroy_block()` on the instrumented state. -/
def destroyBlockStep (st : BlockState) : BlockState :=
  { st with blkCalls := st.blkCalls + 1 }

/-- Which counter field of the block a reference designates
(`ctl->strongCount` or `ctl->weakCount`). -/
inductive CounterField where
  | strongF
  | weakF
deriving DecidableEq, Repr

/-- `detail::incr_ref(ctl, counter)`: guarded by `if (ctl)`, performs
`counter.fetch_add(1)`.  Returns the new block state together with a flag
recording whether any memory access through `ctl` occurred. -/
def incr_ref (ctl : Bool) (c : CounterField) (st : BlockState) :
    BlockState × Bool :=
  if ctl then
    match c with
    | CounterField.strongF => ({ st with strongCount := st.strongCount + 1 }, true)
    | CounterField.weakF => ({ st with weakCount := st.weakCount + 1 }, true)
  else (st, false)

/-- `detail::incr_strong_ref(ctl)` = `incr_ref(ctl, ctl->strongCount)`. -/
def incr_strong_ref (ctl : Bool) (st : BlockState) : BlockState × Bool :=
  incr_ref ctl CounterField.strongF st

/-- `detail::incr_weak_ref(ctl)` = `incr_ref(ctl, ctl->weakCount)`. -/
def incr_weak_ref (ctl : Bool) (st : BlockState) : BlockState × Bool :=
  incr_ref ctl CounterField.weakF st

/-- `detail::release_shared_ref(ctl)`: null check, then
`oldCount = strongCount.fetch_sub(1)`; if `oldCount == 1` run
`destroy_object()`, and then `destroy_block()` iff `weakCount == 0`. -/
def release_shared_ref (ctl : Bool) (st : BlockState) : BlockState :=
  if ctl then
    let oldCount := st.strongCount
    let st1 := { st with strongCount := st.strongCount - 1 }
    if oldCount = 1 then
      let st2 := destroyObjectStep st1
      if st2.weakCount = 0 then destroyBlockStep st2 else st2
    else st1
  else st

/-- `detail::release_weak_ref(ctl)`: if `ctl` is non-null and
`weakCount.fetch_sub(1) == 1`, then run `destroy_block()` iff
`strongCount == 0`. -/
def release_weak_ref (ctl : Bool) (st : BlockState) : BlockState :=
  if ctl then
    let oldCount := st.weakCount
    let st1 := { st with weakCount := st.weakCount - 1 }
    if oldCount = 1 then
      if st1.strongCount = 0 then destroyBlockStep st1 else st1
    else st1
  else st

/-- Model of a `SharedPtr<T>` handle: `m_ptr` is the (nullable) payload
pointer, `m_ctl` records whether `m_ctl` points at the block under study
(`false` = null control-block pointer). -/
structure SP where
  m_ptr : Option Nat
  m_ctl : Bool
deriving DecidableEq, Repr

/-- A default-constructed (or nullptr-constructed) `SharedPtr`: both
members null. -/
def SP.empty : SP := { m_ptr := none, m_ctl := false }

/-- Model of a `WeakPtr<T>` handle. -/
structure WP where
  m_ptr : Option Nat
  m_ctl : Bool
deriving DecidableEq, Repr

/-- A default-constructed `WeakPtr`. -/
def WP.empty : WP := { m_ptr := none, m_ctl := false }

/-- `SharedPtr::operator bool()`: `m_ptr != nullptr`. -/
def SP.toBool (h : SP) : Bool := h.m_ptr.isSome

/-- `SharedPtr::get()`. -/
def SP.get (h : SP) : Option Nat := h.m_ptr

/-- `SharedPtr::strong_count()`: `m_ctl ? m_ctl->strongCount.load() : 0`. -/
def SP.strong_count (h : SP) (st : BlockState) : Int :=
  if h.m_ctl then st.strongCount else 0

/-- `WeakPtr::strong_count()`. -/
def WP.strong_count (w : WP) (st : BlockState) : Int :=
  if w.m_ctl then st.strongCount else 0

/-- `WeakPtr::expired()`: `strong_count() == 0`. -/
def WP.expired (w : WP) (st : BlockState) : Bool :=
  WP.strong_count w st = 0

/-- `SharedPtr` copy constructor: copy both members, then
`incr_strong_ref(m_ctl)`. -/
def SP.copy (h : SP) (st : BlockState) : SP × BlockState :=
  ({ m_ptr := h.m_ptr, m_ctl := h.m_ctl }, (incr_strong_ref h.m_ctl st).1)

/-- `SharedPtr` destructor: `release_shared_ref(m_ctl)`. -/
def SP.destruct (h : SP) (st : BlockState) : BlockState :=
  release_shared_ref h.m_ctl st

/-- `SharedPtr::reset()`: `SharedPtr().swap(*this)`, after which the
temporary (holding the old members) is destroyed. -/
def SP.reset (h : SP) (st : BlockState) : SP × BlockState :=
  let tmp := SP.empty
  let selfAfter := tmp
  let tmpAfter := h
  (selfAfter, SP.destruct tmpAfter st)

/-- `WeakPtr(const SharedPtr&)`: copy both members, then
`incr_weak_ref(m_ctl)`. -/
def WP.fromShared (h : SP) (st : BlockState) : WP × BlockState :=
  ({ m_ptr := h.m_ptr, m_ctl := h.m_ctl }, (incr_weak_ref h.m_ctl st).1)

/-- One attempt of the `compare_exchange_weak` in
`detail::weak_ptr_lock_impl`: `actual` is the value the strong counter
holds when the CAS executes, `spurious` records a spurious failure of
the weak CAS. -/
structure CasAttempt where
  actual : Int
  spurious : Bool
deriving DecidableEq, Repr

/-- Result of the lock loop. -/
inductive LockRes where
  | empty
  | acquired (newCount : Int)
deriving DecidableEq, Repr

/-- The CAS loop of `detail::weak_ptr_lock_impl`, parametrised by the
sequence of counter values met at each CAS attempt.  `count` is the
value last read from `strongCount`.  If `count == 0` the loop exits with
an empty result; otherwise the next `CasAttempt` is consumed: the CAS
succeeds iff the actual value equals `count` and the attempt is not
spurious, setting the counter to `count + 1`; on failure `count` is
re-read (set to `actual`) and the loop retries.  `none` means the
schedule ended while the loop was still running. -/
def lock_loop (count : Int) : List CasAttempt → Option LockRes
  | [] => if count = 0 then some LockRes.empty else none
  | a :: rest =>
    if count = 0 then some LockRes.empty
    else if a.spurious = false ∧ a.actual = count then
      some (LockRes.acquired (count + 1))
    else lock_loop a.actual rest

/-- `detail::weak_ptr_lock_impl(ptr, ctl)`: a default-constructed result;
if `ctl` is null it is returned unchanged (without ever entering the
loop), otherwise the CAS loop runs and on success the result's
`m_ptr` / `m_ctl` are set to the arguments. -/
def weak_ptr_lock_impl (ptr : Option Nat) (ctl : Bool) (initCount : Int)
    (sched : List CasAttempt) : Option (SP × LockRes) :=
  if ctl then
    match lock_loop initCount sched with
    | none => none
    | some LockRes.empty => some (SP.empty, LockRes.empty)
    | some (LockRes.acquired n) =>
      some ({ m_ptr := ptr, m_ctl := ctl }, LockRes.acquired n)
  else some (SP.empty, LockRes.empty)

/-- `WeakPtr::lock()` in a single-threaded context: the counter value at
the (single) CAS attempt is exactly the value initially loaded, and the
CAS does not fail spuriously. -/
def WP.lock (w : WP) (st : BlockState) : SP × BlockState :=
  match weak_ptr_lock_impl w.m_ptr w.m_ctl st.strongCount
      [{ actual := st.strongCount, spurious := false }] with
  | some (h, LockRes.acquired n) => (h, { st with strongCount := n })
  | some (h, LockRes.empty) => (h, st)
  | none => (SP.empty, st)

/-- One handle operation touching a single control block, in the
single-threaded history model used for the teardown protocol. -/
inductive HandleOp where
  | copyStrong
  | makeWeak
  | copyWeak
  | dropStrong
  | dropWeak
deriving DecidableEq, Repr

/-- The effect of one handle operation on the block, each the code path
of the corresponding member function: copy constructors call
`incr_strong_ref` / `incr_weak_ref`, destructors and reset call
`release_shared_ref` / `release_weak_ref`. -/
def applyOp (op : HandleOp) (st : BlockState) : BlockState :=
  match op with
  | HandleOp.copyStrong => (incr_strong_ref true st).1
  | HandleOp.makeWeak => (incr_weak_ref true st).1
  | HandleOp.copyWeak => (incr_weak_ref true st).1
  | HandleOp.dropStrong => release_shared_ref true st
  | HandleOp.dropWeak => release_weak_ref true st

/-- Precondition for an operation to occur in a well-formed handle
history: a strong (weak) handle can only be copied or dropped while one
is live, i.e. while its counter is positive. -/
def opOk (op : HandleOp) (st : BlockState) : Bool :=
  match op with
  | HandleOp.copyStrong => decide (1 ≤ st.strongCount)
  | HandleOp.makeWeak => decide (1 ≤ st.strongCount)
  | HandleOp.copyWeak => decide (1 ≤ st.weakCount)
  | HandleOp.dropStrong => decide (1 ≤ st.strongCount)
  | HandleOp.dropWeak => decide (1 ≤ st.weakCount)

/-- A list of operations forms a well-formed history from a state. -/
def validFrom (st : BlockState) : List HandleOp → Bool
  | [] => true
  | op :: rest => opOk op st && validFrom (applyOp op st) rest

/-- Run a list of operations. -/
def execOps (st : BlockState) : List HandleOp → BlockState
  | [] => st
  | op :: rest => execOps (applyOp op st) rest

/-- The teardown invariant: counters never go negative, the object has
been destroyed exactly once iff the strong count has reached zero, and
the block has been destroyed exactly once iff both counters have
reached zero. -/
def TeardownInv (st : BlockState) : Prop :=
  0 ≤ st.strongCount ∧ 0 ≤ st.weakCount ∧
  st.objCalls = (if st.strongCount = 0 then 1 else 0) ∧
  st.blkCalls = (if st.strongCount = 0 ∧ st.weakCount = 0 then 1 else 0)

/-- Counter state of a just-constructed control block, before the
owning handle is built: both `std::atomic_long` members are
value-initialised to 0. -/
def BlockState.zero : BlockState :=
  { strongCount := 0, weakCount := 0, objCalls := 0, blkCalls := 0 }

/-- `detail::alloc_shared_impl` / `make_shared_impl`: construct a
direct block (counters 0) and return `SharedPtr(block->ptr(), block)`;
that private constructor runs `incr_strong_ref`, giving strong count 1. -/
def make_shared_impl (ptr : Nat) : SP × BlockState :=
  ({ m_ptr := some ptr, m_ctl := true }, (incr_strong_ref true BlockState.zero).1)

/-- `SharedPtr::operator=(const SharedPtr&)`: guarded by the
self-assignment check `this != &other`; on distinct objects it releases
the current reference, copies both members and increments.  `isSelf`
records whether `this == &other` (in which case `target = src`). -/
def sp_copy_assign (isSelf : Bool) (target src : SP) (st : BlockState) :
    SP × BlockState :=
  if isSelf then (target, st)
  else
    let st1 := release_shared_ref target.m_ctl st
    let st2 := (incr_strong_ref src.m_ctl st1).1
    ({ m_ptr := src.m_ptr, m_ctl := src.m_ctl }, st2)

/-- `SharedPtr::operator=(SharedPtr&&)`: `SharedPtr(std::move(other)).swap(*this)`
followed by the temporary's destructor.  Returns (new target, new
source, block state).  When `isSelf` the moved-from source is the
target itself: the move constructor steals the members into the
temporary and nulls the object, the swap moves them back, and the
temporary (now empty) releases nothing. -/
def sp_move_assign (isSelf : Bool) (target src : SP) (st : BlockState) :
    SP × SP × BlockState :=
  if isSelf then
    let tmp := target
    let self0 := SP.empty
    let self1 := tmp
    let tmp1 := self0
    (self1, self1, release_shared_ref tmp1.m_ctl st)
  else
    let tmp := src
    let src1 := SP.empty
    let self1 := tmp
    let tmp1 := target
    (self1, src1, release_shared_ref tmp1.m_ctl st)

/-- Allocation-ledger events recording every allocation, deallocation,
element construction and element destruction performed by a factory. -/
inductive Ev where
  | allocElems (n : Nat)
  | deallocElems (n : Nat)
  | ctorElem (i : Nat)
  | dtorElem (i : Nat)
  | allocBlock
  | deallocBlock
deriving DecidableEq, Repr

/-- `detail::create_ctl_block(ptr, d, alloc)`: returns null without
allocating when `ptr` is null; otherwise allocates and constructs a
`ControlBlockPtr` (counters 0, deleter and allocator stored). -/
def create_ctl_block (ptr : Option Nat) : Option BlockState × List Ev :=
  match ptr with
  | none => (none, [])
  | some _ => (some BlockState.zero, [Ev.allocBlock])

/-- The `SharedPtr(from_raw_ptr_with_deleter_tag, ptr, d, alloc)`
constructor: on non-null `ptr` it calls `create_ctl_block` and then
`incr_strong_ref`; on null `ptr` it leaves the handle empty and
performs no allocation (the `if (ptr)` guard skips everything).
Returns (handle, control block if any, ledger). -/
def sp_from_raw (ptr : Option Nat) : SP × Option BlockState × List Ev :=
  match ptr with
  | some p =>
    let created := create_ctl_block (some p)
    match created.1 with
    | some blk =>
      ({ m_ptr := some p, m_ctl := true },
       some (incr_strong_ref true blk).1, created.2)
    | none => (SP.empty, none, created.2)
  | none => (SP.empty, none, [])

/-- `std::uninitialized_default_construct_n(ptr + start, remaining)` as
specified by the C++ standard: elements are constructed in index order,
and if a constructor throws, all already-constructed elements (from the
first) are destroyed before the exception propagates.  Element
construction throws iff `failAt = some (index + 1)` (1-based).
Returns (ledger, whether it threw). -/
def uninit_construct_from (start remaining : Nat) (failAt : Option Nat) :
    List Ev × Bool :=
  match remaining with
  | 0 => ([], false)
  | r + 1 =>
    if failAt = some (start + 1) then
      ((List.range start).map Ev.dtorElem, true)
    else
      let rest := uninit_construct_from (start + 1) r failAt
      (Ev.ctorElem start :: rest.1, rest.2)

/-- `detail::alloc_shared_array_impl(alloc, size)`: returns an empty
handle for size 0 before any allocation; otherwise allocates the
element buffer, default-constructs the elements (with `constructed`
held at 0 throughout, exactly as in the source), and on success
allocates and constructs the control block and returns
`SharedPtr<T[]>(ptr, block)`.  The catch handlers run
`std::destroy_n(ptr, constructed)` and the deallocations of the source.
`failAt` selects the element construction that throws (if any);
`blockCtorThrows` makes the `std::construct_at(block, ...)` call throw.
Result `none` means the exception propagated to the caller. -/
def alloc_shared_array_impl (n : Nat) (failAt : Option Nat)
    (blockCtorThrows : Bool) : List Ev × Option (SP × Option BlockState) :=
  if n = 0 then ([], some (SP.empty, none))
  else
    let ev0 := [Ev.allocElems n]
    let constructed := 0
    let cres := uninit_construct_from 0 n failAt
    if cres.2 then
      (ev0 ++ cres.1 ++ (List.range constructed).map Ev.dtorElem ++
        [Ev.deallocElems n], none)
    else
      let ev1 := ev0 ++ cres.1 ++ [Ev.allocBlock]
      if blockCtorThrows then
        (ev1 ++ [Ev.deallocBlock] ++ (List.range constructed).map Ev.dtorElem ++
          [Ev.deallocElems n], none)
      else
        (ev1, some ({ m_ptr := some 0, m_ctl := true },
          some (incr_strong_ref true BlockState.zero).1))

/-- `detail::make_shared_array_impl(size)` =
`alloc_shared_array_impl(std::allocator, size)`. -/
def make_shared_array_impl (n : Nat) (failAt : Option Nat)
    (blockCtorThrows : Bool) : List Ev × Option (SP × Option BlockState) :=
  alloc_shared_array_impl n failAt blockCtorThrows

/-- Which stored component a successful typed lookup designates. -/
inductive CapRef where
  | delRef
  | allocRef
deriving DecidableEq, Repr

/-- The static type keys (`typeid(Deleter)`, `typeid(Alloc)`) of the
components stored in a control block, type keys modelled as naturals. -/
structure StoredCaps where
  delKey : Nat
  allocKey : Nat
deriving DecidableEq, Repr

/-- `ControlBlockPtr::deleter(const std::type_info&)`: compares the
queried key against `typeid(Deleter)` first, then `typeid(Alloc)`,
and returns null otherwise. -/
def block_deleter_lookup (caps : StoredCaps) (key : Nat) : Option CapRef :=
  if key = caps.delKey then some CapRef.delRef
  else if key = caps.allocKey then some CapRef.allocRef
  else none

/-- `SharedPtr<T[]>::deleter<Deleter>()`:
`m_ctl ? static_cast<Deleter*>(m_ctl->deleter(typeid(Deleter))) : nullptr`. -/
def sp_deleter (ctl : Option StoredCaps) (key : Nat) : Option CapRef :=
  match ctl with
  | none => none
  | some caps => block_deleter_lookup caps key

/-- Program counter of the locking thread A in the race model.  A owns
the weak handle: it runs `lock()`, then, if the lock succeeded,
destroys the acquired SharedHandle (`release_shared_ref`), and finally
destroys its WeakHandle (`release_weak_ref`).  Each constructor is the
next atomic shared-memory action. -/
inductive APc where
  | a0
  | a1 (c : Int)
  | aS
  | aS1
  | aS2
  | aS3
  | aW
  | aW1
  | aW2
  | aD
deriving DecidableEq, Repr

/-- Program counter of thread B, which destroys the last strong handle
(`release_shared_ref`): fetch_sub, then on old value 1 destroy_object,
load weakCount, and destroy_block if it was 0. -/
inductive BPc where
  | b0
  | b1
  | b2
  | b3
  | bD
deriving DecidableEq, Repr

/-- Global state of the race: the shared control block plus both
program counters. -/
structure RaceState where
  blk : BlockState
  apc : APc
  bpc : BPc
deriving DecidableEq, Repr

/-- Initial race state: one strong handle (held by B) and one weak
handle (held by A). -/
def raceInit : RaceState :=
  { blk := { strongCount := 1, weakCount := 1, objCalls := 0, blkCalls := 0 },
    apc := APc.a0, bpc := BPc.b0 }

/-- One atomic step of thread A.  `spurious` lets the
`compare_exchange_weak` fail spuriously. -/
def stepA (spurious : Bool) (s : RaceState) : RaceState :=
  match s.apc with
  | APc.a0 => { s with apc := APc.a1 s.blk.strongCount }
  | APc.a1 c =>
    if c = 0 then { s with apc := APc.aW }
    else if spurious = false ∧ s.blk.strongCount = c then
      { s with blk := { s.blk with strongCount := c + 1 }, apc := APc.aS }
    else { s with apc := APc.a1 s.blk.strongCount }
  | APc.aS =>
    let old := s.blk.strongCount
    let blk1 := { s.blk with strongCount := old - 1 }
    if old = 1 then { s with blk := blk1, apc := APc.aS1 }
    else { s with blk := blk1, apc := APc.aW }
  | APc.aS1 => { s with blk := destroyObjectStep s.blk, apc := APc.aS2 }
  | APc.aS2 =>
    if s.blk.weakCount = 0 then { s with apc := APc.aS3 }
    else { s with apc := APc.aW }
  | APc.aS3 => { s with blk := destroyBlockStep s.blk, apc := APc.aW }
  | APc.aW =>
    let old := s.blk.weakCount
    let blk1 := { s.blk with weakCount := old - 1 }
    if old = 1 then { s with blk := blk1, apc := APc.aW1 }
    else { s with blk := blk1, apc := APc.aD }
  | APc.aW1 =>
    if s.blk.strongCount = 0 then { s with apc := APc.aW2 }
    else { s with apc := APc.aD }
  | APc.aW2 => { s with blk := destroyBlockStep s.blk, apc := APc.aD }
  | APc.aD => s

/-- One atomic step of thread B. -/
def stepB (s : RaceState) : RaceState :=
  match s.bpc with
  | BPc.b0 =>
    let old := s.blk.strongCount
    let blk1 := { s.blk with strongCount := old - 1 }
    if old = 1 then { s with blk := blk1, bpc := BPc.b1 }
    else { s with blk := blk1, bpc := BPc.bD }
  | BPc.b1 => { s with blk := destroyObjectStep s.blk, bpc := BPc.b2 }
  | BPc.b2 =>
    if s.blk.weakCount = 0 then { s with bpc := BPc.b3 }
    else { s with bpc := BPc.bD }
  | BPc.b3 => { s with blk := destroyBlockStep s.blk, bpc := BPc.bD }
  | BPc.bD => s

/-- A scheduler choice: which thread performs the next atomic action
(and whether A's CAS fails spuriously). -/
inductive Choice where
  | aStep (spurious : Bool)
  | bStep
deriving DecidableEq, Repr

/-- One interleaving step. -/
def raceStep (ch : Choice) (s : RaceState) : RaceState :=
  match ch with
  | Choice.aStep sp => stepA sp s
  | Choice.bStep => stepB s

/-- Reachability under every interleaving and every spurious-failure
pattern. -/
inductive RaceReachable : RaceState → Prop where
  | init : RaceReachable raceInit
  | step (s : RaceState) (ch : Choice) :
      RaceReachable s → RaceReachable (raceStep ch s)

/-- Scenario of spec section 8: h2 = make(...). -/
def c3Made : SP × BlockState := make_shared_impl 0

/-- A WeakHandle taken from h2 before any copies. -/
def c3Weak : WP × BlockState := WP.fromShared c3Made.1 c3Made.2

/-- h3 copy-constructed from h2. -/
def c3Copy : SP × BlockState := SP.copy c3Made.1 c3Weak.2

/-- h2.reset(). -/
def c3Reset : SP × BlockState := SP.reset c3Made.1 c3Copy.2

/-- h3 destroyed. -/
def c3Final : BlockState := SP.destruct c3Copy.1 c3Reset.2

/-- Run a schedule of interleaving choices. -/
def runRace (s : RaceState) : List Choice → RaceState
  | [] => s
  | ch :: rest => runRace (raceStep ch s) rest

/-- The schedule exhibiting the teardown race: B performs the
fetch_sub of the last strong release; A then runs lock() (observing
strong count 0, returning empty) and releases its weak handle,
observing weak 1 -> 0 and strong == 0 and therefore destroying the
block; B then runs destroy_object on the already-destroyed block and,
observing weak == 0, destroys the block a second time. -/
def c5FailSchedule : List Choice :=
  [Choice.bStep, Choice.aStep false, Choice.aStep false, Choice.aStep false,
   Choice.aStep false, Choice.aStep false, Choice.bStep, Choice.bStep,
   Choice.bStep]

theorem teardownInv_fresh : TeardownInv BlockState.fresh := by
  simp [TeardownInv, BlockState.fresh]

theorem teardownInv_step (op : HandleOp) (st : BlockState)
    (hInv : TeardownInv st) (hOk : opOk op st = true) :
    TeardownInv (applyOp op st) := by
  obtain ⟨h1, h2, h3, h4⟩ := hInv
  cases op <;>
    simp only [opOk, decide_eq_true_eq] at hOk <;>
    simp only [applyOp, incr_strong_ref, incr_weak_ref, incr_ref,
      release_shared_ref, release_weak_ref, destroyObjectStep,
      destroyBlockStep, if_true, TeardownInv] <;>
    split_ifs <;>
    simp_all <;> omega

theorem teardownInv_exec (ops : List HandleOp) (st : BlockState)
    (hInv : TeardownInv st) (hValid : validFrom st ops = true) :
    TeardownInv (execOps st ops) := by
  induction ops generalizing st with
  | nil => exact hInv
  | cons op rest ih =>
    simp only [validFrom, Bool.and_eq_true] at hValid
    exact ih (applyOp op st) (teardownInv_step op st hInv hValid.1) hValid.2

/-- C2: over every well-formed single-threaded history of handle
operations starting from the factory state (strong 1, weak 0),
destroy_object() runs exactly once, at the release moving the strong
count from 1 to 0; destroy_block() runs exactly once, at whichever
release observes the other counter already at zero; and destroy_block()
never runs before destroy_object().  Stated as: the teardown invariant
holds after every valid history, and a single step increments the
destruction counters exactly under those conditions. -/
theorem claim_C2 :
    (∀ ops : List HandleOp, validFrom BlockState.fresh ops = true →
      TeardownInv (execOps BlockState.fresh ops) ∧
      (execOps BlockState.fresh ops).objCalls ≤ 1 ∧
      (execOps BlockState.fresh ops).blkCalls ≤ 1 ∧
      ((execOps BlockState.fresh ops).blkCalls = 1 →
        (execOps BlockState.fresh ops).objCalls = 1)) ∧
    (∀ (op : HandleOp) (st : BlockState), TeardownInv st → opOk op st = true →
      ((applyOp op st).objCalls = st.objCalls + 1 ↔
        op = HandleOp.dropStrong ∧ st.strongCount = 1) ∧
      ((applyOp op st).objCalls = st.objCalls ∨
        (applyOp op st).objCalls = st.objCalls + 1) ∧
      ((applyOp op st).blkCalls = st.blkCalls + 1 ↔
        ((op = HandleOp.dropStrong ∧ st.strongCount = 1 ∧ st.weakCount = 0) ∨
         (op = HandleOp.dropWeak ∧ st.weakCount = 1 ∧ st.strongCount = 0))) ∧
      ((applyOp op st).blkCalls = st.blkCalls ∨
        (applyOp op st).blkCalls = st.blkCalls + 1)) := by
  constructor
  · intro ops hValid
    have hInv := teardownInv_exec ops BlockState.fresh teardownInv_fresh hValid
    obtain ⟨g1, g2, g3, g4⟩ := hInv
    refine ⟨⟨g1, g2, g3, g4⟩, ?_⟩
    rw [g3, g4]
    split_ifs <;> simp_all
  · intro op st hInv hOk
    obtain ⟨h1, h2, h3, h4⟩ := hInv
    cases op <;>
      simp only [opOk, decide_eq_true_eq] at hOk <;>
      simp only [applyOp, incr_strong_ref, incr_weak_ref, incr_ref,
        release_shared_ref, release_weak_ref, destroyObjectStep,
        destroyBlockStep, if_true] <;>
      (try split_ifs) <;>
      simp_all

theorem claim_C2_witness :
    validFrom BlockState.fresh
      [HandleOp.makeWeak, HandleOp.copyStrong, HandleOp.dropStrong,
       HandleOp.dropStrong, HandleOp.dropWeak] = true ∧
    TeardownInv (execOps BlockState.fresh
      [HandleOp.makeWeak, HandleOp.copyStrong, HandleOp.dropStrong,
       HandleOp.dropStrong, HandleOp.dropWeak]) ∧
    (execOps BlockState.fresh
      [HandleOp.makeWeak, HandleOp.copyStrong, HandleOp.dropStrong,
       HandleOp.dropStrong, HandleOp.dropWeak]).objCalls = 1 ∧
    (execOps BlockState.fresh
      [HandleOp.makeWeak, HandleOp.copyStrong, HandleOp.dropStrong,
       HandleOp.dropStrong, HandleOp.dropWeak]).blkCalls = 1 :=
  ⟨by decide,
   (claim_C2.1
     [HandleOp.makeWeak, HandleOp.copyStrong, HandleOp.dropStrong,
      HandleOp.dropStrong, HandleOp.dropWeak] (by decide)).1,
   by decide, by decide⟩

theorem lock_loop_zero (sched : List CasAttempt) :
    lock_loop 0 sched = some LockRes.empty := by
  cases sched <;> simp [lock_loop]

theorem lock_loop_acquired_from_nonzero (c : Int) (sched : List CasAttempt)
    (n : Int) (h : lock_loop c sched = some (LockRes.acquired n)) :
    ∃ v : Int, v ≠ 0 ∧ n = v + 1 := by
  induction sched generalizing c with
  | nil =>
    by_cases hc : c = 0 <;> simp [lock_loop, hc] at h
  | cons a rest ih =>
    by_cases hc : c = 0
    · simp [lock_loop, hc] at h
    · by_cases hcas : a.spurious = false ∧ a.actual = c
      · simp [lock_loop, hc, hcas] at h
        exact ⟨c, hc, h.symm⟩
      · simp only [lock_loop, if_neg hc, if_neg hcas] at h
        exact ih a.actual h

/-- C1: for every WeakHandle, lock() reads the strong count and loops:
an observed 0 yields an empty handle; otherwise a CAS from the observed
value to value+1 is attempted, success yielding a handle sharing the
payload and block pointers, failure re-reading the count and retrying;
an acquisition never starts from an observed zero; and lock() on an
empty WeakHandle (null control-block pointer) returns an empty handle. -/
theorem claim_C1 :
    (∀ (ptr : Option Nat) (c : Int) (sched : List CasAttempt),
      weak_ptr_lock_impl ptr false c sched = some (SP.empty, LockRes.empty)) ∧
    (∀ sched : List CasAttempt, lock_loop 0 sched = some LockRes.empty) ∧
    (∀ (c : Int) (a : CasAttempt) (rest : List CasAttempt),
      c ≠ 0 → a.spurious = false → a.actual = c →
      lock_loop c (a :: rest) = some (LockRes.acquired (c + 1))) ∧
    (∀ (c : Int) (a : CasAttempt) (rest : List CasAttempt),
      c ≠ 0 → (a.spurious = true ∨ a.actual ≠ c) →
      lock_loop c (a :: rest) = lock_loop a.actual rest) ∧
    (∀ (c : Int) (sched : List CasAttempt) (n : Int),
      lock_loop c sched = some (LockRes.acquired n) →
      ∃ v : Int, v ≠ 0 ∧ n = v + 1) ∧
    (∀ (ptr : Option Nat) (c : Int) (sched : List CasAttempt) (h : SP) (n : Int),
      weak_ptr_lock_impl ptr true c sched = some (h, LockRes.acquired n) →
      h.m_ptr = ptr ∧ h.m_ctl = true) := by
  refine ⟨?_, lock_loop_zero, ?_, ?_, lock_loop_acquired_from_nonzero, ?_⟩
  · intro ptr c sched
    simp [weak_ptr_lock_impl]
  · intro c a rest hc hs ha
    simp [lock_loop, hc, hs, ha]
  · intro c a rest hc hfail
    have : ¬(a.spurious = false ∧ a.actual = c) := by
      rcases hfail with h1 | h1
      · intro hcon
        rw [h1] at hcon
        exact absurd hcon.1 (by decide)
      · intro hcon
        exact h1 hcon.2
    simp only [lock_loop, if_neg hc, if_neg this]
  · intro ptr c sched h n hres
    simp only [weak_ptr_lock_impl, if_pos rfl] at hres
    rcases hloop : lock_loop c sched with _ | r
    · rw [hloop] at hres
      simp at hres
    · rw [hloop] at hres
      cases r with
      | empty => simp at hres
      | acquired m =>
        simp at hres
        rw [← hres.1]
        exact ⟨rfl, rfl⟩

theorem claim_C1_witness :
    weak_ptr_lock_impl (some 7) false 1 [] = some (SP.empty, LockRes.empty) ∧
    lock_loop 2 [{ actual := 2, spurious := false }] =
      some (LockRes.acquired 3) ∧
    (∃ v : Int, v ≠ 0 ∧ (3 : Int) = v + 1) := by
  refine ⟨claim_C1.1 (some 7) 1 [], ?_, ?_⟩
  · exact claim_C1.2.2.1 2 { actual := 2, spurious := false } [] (by decide) rfl rfl
  · exact claim_C1.2.2.2.2.1 2 [{ actual := 2, spurious := false }] 3
      (claim_C1.2.2.1 2 { actual := 2, spurious := false } [] (by decide) rfl rfl)

/-- C3: after a factory creation the handle reports strong count 1;
after copy-constructing h3 from h2 both report 2 (and copy-assigning
h2 into a default handle gives 2 as well); after h2.reset() h3 reports
1; after h3 is destroyed, a WeakHandle taken earlier from the same
block reports expired() == true and lock() on it returns an empty
handle. -/
theorem claim_C3 :
    SP.strong_count c3Made.1 c3Made.2 = 1 ∧
    SP.strong_count c3Made.1 c3Copy.2 = 2 ∧
    SP.strong_count c3Copy.1 c3Copy.2 = 2 ∧
    (sp_copy_assign false SP.empty c3Made.1 c3Weak.2).2.strongCount = 2 ∧
    c3Reset.1 = SP.empty ∧
    SP.strong_count c3Copy.1 c3Reset.2 = 1 ∧
    WP.expired c3Weak.1 c3Final = true ∧
    (WP.lock c3Weak.1 c3Final).1 = SP.empty := by
  decide

/-- C6: a default-constructed, nullptr-constructed, or
null-raw-pointer-adopted SharedHandle is empty: boolean test false,
get() null, strong_count() 0; in the null-adoption case no control
block is allocated (so no deleter is stored) and the ledger is empty. -/
theorem claim_C6 :
    (∀ st : BlockState, SP.toBool SP.empty = false ∧
      SP.get SP.empty = none ∧ SP.strong_count SP.empty st = 0) ∧
    (sp_from_raw none).1 = SP.empty ∧
    (sp_from_raw none).2.1 = none ∧
    (sp_from_raw none).2.2 = [] ∧
    (create_ctl_block none).1 = none ∧
    (create_ctl_block none).2 = [] := by
  refine ⟨?_, rfl, rfl, rfl, rfl, rfl⟩
  intro st
  exact ⟨rfl, rfl, by simp [SP.strong_count, SP.empty]⟩

/-- C7: make_shared_array(0) and allocate_shared_array(alloc, 0) return
an empty handle (boolean test false, null get(), strong count 0) and
perform zero allocations: the ledger is empty and no control block
exists. -/
theorem claim_C7 :
    ∀ (failAt : Option Nat) (blockCtorThrows : Bool) (st : BlockState),
      alloc_shared_array_impl 0 failAt blockCtorThrows =
        ([], some (SP.empty, none)) ∧
      make_shared_array_impl 0 failAt blockCtorThrows =
        ([], some (SP.empty, none)) ∧
      SP.toBool SP.empty = false ∧
      SP.get SP.empty = none ∧
      SP.strong_count SP.empty st = 0 := by
  intro failAt blockCtorThrows st
  refine ⟨rfl, rfl, rfl, rfl, by simp [SP.strong_count, SP.empty]⟩

/-- C8: the typed deleter/allocator retrieval returns the stored
deleter when the queried key equals the deleter's static type, the
stored allocator when it equals the allocator's static type (the
deleter taking precedence when both keys coincide), a null result for
every other key, and null on an empty handle. -/
theorem claim_C8 :
    ∀ (caps : StoredCaps) (key : Nat),
      (sp_deleter (some caps) key ≠ none ↔
        key = caps.delKey ∨ key = caps.allocKey) ∧
      (key = caps.delKey → sp_deleter (some caps) key = some CapRef.delRef) ∧
      (key ≠ caps.delKey → key = caps.allocKey →
        sp_deleter (some caps) key = some CapRef.allocRef) ∧
      (key ≠ caps.delKey → key ≠ caps.allocKey →
        sp_deleter (some caps) key = none) ∧
      sp_deleter none key = none := by
  intro caps key
  refine ⟨?_, ?_, ?_, ?_, rfl⟩
  · constructor
    · intro hne
      by_cases h1 : key = caps.delKey
      · exact Or.inl h1
      · by_cases h2 : key = caps.allocKey
        · exact Or.inr h2
        · exact absurd (by simp [sp_deleter, block_deleter_lookup, h1, h2]) hne
    · rintro (h1 | h2)
      · simp [sp_deleter, block_deleter_lookup, h1]
      · by_cases h1 : key = caps.delKey <;>
          simp only [sp_deleter, block_deleter_lookup, h1, h2, if_true, if_pos rfl] <;>
          (try split_ifs) <;> simp
  · intro h1
    simp [sp_deleter, block_deleter_lookup, h1]
  · intro h1 h2
    subst h2
    simp [sp_deleter, block_deleter_lookup, h1]
  · intro h1 h2
    simp [sp_deleter, block_deleter_lookup, h1, h2]

theorem claim_C8_witness :
    (sp_deleter (some { delKey := 3, allocKey := 5 }) 3 = some CapRef.delRef) ∧
    (sp_deleter (some { delKey := 3, allocKey := 5 }) 5 = some CapRef.allocRef) ∧
    (sp_deleter (some { delKey := 3, allocKey := 5 }) 9 = none) ∧
    (sp_deleter (some { delKey := 3, allocKey := 5 }) 5 ≠ none) := by
  have h := claim_C8 { delKey := 3, allocKey := 5 }
  refine ⟨(h 3).2.1 rfl, (h 5).2.2.1 (by decide) rfl, (h 9).2.2.2.1 (by decide) (by decide), ?_⟩
  exact ((h 5).1).2 (Or.inr rfl)

theorem uninit_spec (r : Nat) : ∀ s k : Nat, s + 1 ≤ k → k ≤ s + r →
    uninit_construct_from s r (some k) =
      (((List.range' s (k - 1 - s)).map Ev.ctorElem) ++
        ((List.range (k - 1)).map Ev.dtorElem), true) := by
  induction r with
  | zero => intro s k h1 h2; omega
  | succ r ih =>
    intro s k h1 h2
    by_cases hk : k = s + 1
    · subst hk
      have hz : s + 1 - 1 - s = 0 := by omega
      simp [uninit_construct_from, hz]
    · have hcond : ¬(some k = some (s + 1)) := by simp [hk]
      have hrec := ih (s + 1) k (by omega) (by omega)
      have hstep : k - 1 - s = (k - 1 - (s + 1)) + 1 := by omega
      simp only [uninit_construct_from, if_neg hcond, hrec, hstep,
        List.range'_succ, List.map_cons, List.cons_append]

theorem alloc_array_fail_events (n k : Nat) (h1 : 1 ≤ k) (h2 : k ≤ n) :
    alloc_shared_array_impl n (some k) false =
      ([Ev.allocElems n] ++ ((List.range (k - 1)).map Ev.ctorElem) ++
        ((List.range (k - 1)).map Ev.dtorElem) ++ [Ev.deallocElems n], none) := by
  have hn : ¬n = 0 := by omega
  have hu := uninit_spec n 0 k (by omega) (by omega)
  have hr : List.range' 0 (k - 1 - 0) = List.range (k - 1) := by
    rw [Nat.sub_zero]
    exact (List.range_eq_range' (k - 1)).symm
  rw [hr] at hu
  simp only [alloc_shared_array_impl, if_neg hn, hu, List.range_zero,
    List.map_nil, List.append_nil, if_true]
  simp

theorem count_map_dtor (m i : Nat) :
    ((List.range m).map Ev.dtorElem).count (Ev.dtorElem i) =
      if i < m then 1 else 0 := by
  induction m with
  | zero => simp
  | succ m ih =>
    rw [List.range_succ, List.map_append, List.count_append, ih]
    simp only [List.map_cons, List.map_nil]
    rw [List.count_singleton']
    simp only [Ev.dtorElem.injEq]
    split_ifs <;> omega

theorem count_map_ctor (m i : Nat) :
    ((List.range m).map Ev.ctorElem).count (Ev.ctorElem i) =
      if i < m then 1 else 0 := by
  induction m with
  | zero => simp
  | succ m ih =>
    rw [List.range_succ, List.map_append, List.count_append, ih]
    simp only [List.map_cons, List.map_nil]
    rw [List.count_singleton']
    simp only [Ev.ctorElem.injEq]
    split_ifs <;> omega

/-- C4: if in the array factory of n elements the construction of the
k-th element (1-based, elements constructed in index order) throws,
then exactly the k-1 previously constructed elements are destroyed,
each exactly once; the size-n element allocation is deallocated; no
control block is ever allocated; and the exception propagates to the
caller (the result is no handle).  Nothing is destroyed twice and all
allocations are balanced. -/
theorem claim_C4 : ∀ n k : Nat, 1 ≤ k → k ≤ n →
    (alloc_shared_array_impl n (some k) false).2 = none ∧
    (∀ i : Nat, (alloc_shared_array_impl n (some k) false).1.count
      (Ev.dtorElem i) = if i < k - 1 then 1 else 0) ∧
    (∀ i : Nat, (alloc_shared_array_impl n (some k) false).1.count
      (Ev.ctorElem i) = if i < k - 1 then 1 else 0) ∧
    (alloc_shared_array_impl n (some k) false).1.count (Ev.allocElems n) = 1 ∧
    (alloc_shared_array_impl n (some k) false).1.count (Ev.deallocElems n) = 1 ∧
    (alloc_shared_array_impl n (some k) false).1.count Ev.allocBlock = 0 ∧
    (alloc_shared_array_impl n (some k) false).1.count Ev.deallocBlock = 0 := by
  intro n k h1 h2
  rw [alloc_array_fail_events n k h1 h2]
  refine ⟨rfl, ?_, ?_, ?_, ?_, ?_, ?_⟩
  · intro i
    simp only [List.count_append, count_map_dtor]
    have hc : ((List.range (k - 1)).map Ev.ctorElem).count (Ev.dtorElem i) = 0 := by
      rw [List.count_eq_zero]
      simp
    rw [hc]
    rw [List.count_singleton', List.count_singleton']
    simp
  · intro i
    simp only [List.count_append, count_map_ctor]
    have hc : ((List.range (k - 1)).map Ev.dtorElem).count (Ev.ctorElem i) = 0 := by
      rw [List.count_eq_zero]
      simp
    rw [hc]
    rw [List.count_singleton', List.count_singleton']
    simp
  · simp only [List.count_append]
    have hc1 : ((List.range (k - 1)).map Ev.ctorElem).count (Ev.allocElems n) = 0 := by
      rw [List.count_eq_zero]; simp
    have hc2 : ((List.range (k - 1)).map Ev.dtorElem).count (Ev.allocElems n) = 0 := by
      rw [List.count_eq_zero]; simp
    rw [hc1, hc2, List.count_singleton', List.count_singleton']
    simp
  · simp only [List.count_append]
    have hc1 : ((List.range (k - 1)).map Ev.ctorElem).count (Ev.deallocElems n) = 0 := by
      rw [List.count_eq_zero]; simp
    have hc2 : ((List.range (k - 1)).map Ev.dtorElem).count (Ev.deallocElems n) = 0 := by
      rw [List.count_eq_zero]; simp
    rw [hc1, hc2, List.count_singleton', List.count_singleton']
    simp
  · simp only [List.count_append]
    have hc1 : ((List.range (k - 1)).map Ev.ctorElem).count Ev.allocBlock = 0 := by
      rw [List.count_eq_zero]; simp
    have hc2 : ((List.range (k - 1)).map Ev.dtorElem).count Ev.allocBlock = 0 := by
      rw [List.count_eq_zero]; simp
    rw [hc1, hc2, List.count_singleton', List.count_singleton']
    simp
  · simp only [List.count_append]
    have hc1 : ((List.range (k - 1)).map Ev.ctorElem).count Ev.deallocBlock = 0 := by
      rw [List.count_eq_zero]; simp
    have hc2 : ((List.range (k - 1)).map Ev.dtorElem).count Ev.deallocBlock = 0 := by
      rw [List.count_eq_zero]; simp
    rw [hc1, hc2, List.count_singleton', List.count_singleton']
    simp

theorem claim_C4_witness :
    (alloc_shared_array_impl 3 (some 2) false).2 = none ∧
    (alloc_shared_array_impl 3 (some 2) false).1.count (Ev.dtorElem 0) = 1 ∧
    (alloc_shared_array_impl 3 (some 2) false).1.count (Ev.dtorElem 1) = 0 ∧
    (alloc_shared_array_impl 3 (some 2) false).1.count (Ev.deallocElems 3) = 1 ∧
    (alloc_shared_array_impl 3 (some 2) false).1.count Ev.allocBlock = 0 := by
  have h := claim_C4 3 2 (by decide) (by decide)
  exact ⟨h.1, by
    have := h.2.1 0
    simpa using this, by
    have := h.2.1 1
    simpa using this, h.2.2.2.2.1, h.2.2.2.2.2.1⟩

/-- C9: operations on an empty SharedHandle (null control-block
pointer) are total and access-free: the increment helpers, which are
handed the null pointer and a counter-field designator formed through
it, perform no memory access (access flag false) and leave the block
state unchanged; copy construction, copy assignment from the empty
handle, and WeakHandle construction from it all yield empty handles
with no counter change. -/
theorem claim_C9 :
    ∀ (st : BlockState) (c : CounterField),
      incr_ref false c st = (st, false) ∧
      incr_strong_ref SP.empty.m_ctl st = (st, false) ∧
      incr_weak_ref SP.empty.m_ctl st = (st, false) ∧
      SP.copy SP.empty st = (SP.empty, st) ∧
      sp_copy_assign false SP.empty SP.empty st = (SP.empty, st) ∧
      WP.fromShared SP.empty st = (WP.empty, st) := by
  intro st c
  refine ⟨?_, rfl, rfl, rfl, rfl, rfl⟩
  simp [incr_ref]

theorem raceReachable_runRace (l : List Choice) : ∀ s : RaceState,
    RaceReachable s → RaceReachable (runRace s l) := by
  induction l with
  | nil => intro s h; exact h
  | cons ch rest ih =>
    intro s h
    exact ih (raceStep ch s) (RaceReachable.step s ch h)

/-- C5 (exhibit of the violation): with one strong handle (thread B)
and one weak handle (thread A), there is an interleaving of the
program's own atomic steps — B releasing the last strong reference
while A runs lock() and then releases the weak handle — in which
destroy_block() runs twice (once on each thread), and the first
destroy_block() runs before destroy_object() has run at all.  This
contradicts the claim that exactly one thread runs destroy_block(). -/
theorem claim_C5 :
    RaceReachable (runRace raceInit c5FailSchedule) ∧
    (runRace raceInit (c5FailSchedule.take 6)).blk.blkCalls = 1 ∧
    (runRace raceInit (c5FailSchedule.take 6)).blk.objCalls = 0 ∧
    (runRace raceInit c5FailSchedule).blk.objCalls = 1 ∧
    (runRace raceInit c5FailSchedule).blk.blkCalls = 2 ∧
    (runRace raceInit c5FailSchedule).apc = APc.aD ∧
    (runRace raceInit c5FailSchedule).bpc = BPc.bD := by
  refine ⟨raceReachable_runRace c5FailSchedule raceInit RaceReachable.init,
    ?_, ?_, ?_, ?_, ?_, ?_⟩ <;> decide

/-- C10: assigning a SharedHandle to itself, by copy or by move,
leaves the handle unchanged: same payload and control-block members,
same block state (hence same strong count), and the payload is not
destroyed. -/
theorem claim_C10 :
    ∀ (h : SP) (st : BlockState),
      sp_copy_assign true h h st = (h, st) ∧
      sp_move_assign true h h st = (h, h, st) ∧
      (sp_copy_assign true h h st).2.objCalls = st.objCalls ∧
      (sp_move_assign true h h st).2.2.objCalls = st.objCalls ∧
      SP.strong_count (sp_copy_assign true h h st).1
        (sp_copy_assign true h h st).2 = SP.strong_count h st ∧
      SP.strong_count (sp_move_assign true h h st).1
        (sp_move_assign true h h st).2.2 = SP.strong_count h st := by
  intro h st
  have hmove : sp_move_assign true h h st = (h, h, st) := by
    simp [sp_move_assign, release_shared_ref, SP.empty]
  refine ⟨rfl, hmove, rfl, ?_, rfl, ?_⟩
  · rw [hmove]
  · rw [hmove]

end Sp
